import Mathlib

/-!
Shallow embedding of `plot_deploys.py` (KSA_Version_History).

The script scans the lines of a history file for sentinel lines whose
stripped content equals `DeployBot`, looks in a six-line window (the
marker line itself plus the five following lines) for the first line
containing a substring matching the regex
`\b(\d{2}\.\d{2}\.\d{4} \d{2}:\d{2})\b`, parses that substring with
`datetime.strptime(_, "%d.%m.%Y %H:%M")` (which raises `ValueError` on an
invalid calendar date or time — the exception is not caught), collects
the parsed datetimes, de-duplicates them preserving first-seen order,
sorts them, fits a degree-1 polynomial through `(date2num(t), index)`
pairs with `np.polyfit`, and renders annotations.

Modelling conventions:
* lines and strings are `List Char`; character classes (`\d`, `\w`,
  `str.strip` whitespace) use their ASCII meaning, which coincides with
  Python on every input considered here;
* a Python `datetime.datetime` is the record of its seven components
  (`strptime` with this format always sets `second`/`microsecond` to 0);
* exceptions escaping a function are an `Except.error`;
* `np.polyfit(x, y, 1)` is the closed-form ordinary-least-squares line
  over `ℚ` (exact arithmetic; equal to the float result up to rounding on
  non-degenerate input; on a zero-variance x the model's total `ℚ`
  division returns junk where numpy returns a minimum-norm solution and
  a RankWarning — neither path is a guard, which is all that is used);
* `list.sort()` is insertion sort by the chronological order; on the
  duplicate-free lists the script sorts, any sort agrees.
-/

namespace PlotDeploys

/-- The component fields of a Python `datetime.datetime` value. -/
structure PyDateTime where
  year : Nat
  month : Nat
  day : Nat
  hour : Nat
  minute : Nat
  second : Nat
  microsecond : Nat
deriving DecidableEq, Repr

/-- The two-digit/four-digit groups captured by `DATE_PATTERN`,
as raw numbers, before `strptime` validates them. -/
structure Fields where
  day : Nat
  month : Nat
  year : Nat
  hour : Nat
  minute : Nat
deriving DecidableEq, Repr

/-- ASCII decimal digit, the `\d` class of `DATE_PATTERN`. -/
def isDigitChar (c : Char) : Bool := '0' ≤ c && c ≤ '9'

/-- Word character for the `\b` boundaries of `DATE_PATTERN`. -/
def isWordChar (c : Char) : Bool := c.isAlphanum || c == '_'

/-- Whitespace stripped by Python `str.strip()`. -/
def isSpaceChar (c : Char) : Bool :=
  c == ' ' || c == '\t' || c == '\n' || c == '\r' || c == '\x0b' || c == '\x0c'

/-- Numeric value of a digit character. -/
def dval (c : Char) : Nat := c.toNat - '0'.toNat

/-- Attempt to match `\d{2}\.\d{2}\.\d{4} \d{2}:\d{2}\b` at the head of
the character list (the trailing `\b` is the check on `rest`; the
leading `\b` is checked by the caller `searchFrom`). -/
def matchToken : List Char → Option Fields
  | d1 :: d2 :: '.' :: m1 :: m2 :: '.' :: y1 :: y2 :: y3 :: y4 :: ' ' ::
      h1 :: h2 :: ':' :: n1 :: n2 :: rest =>
    if isDigitChar d1 && isDigitChar d2 && isDigitChar m1 && isDigitChar m2 &&
       isDigitChar y1 && isDigitChar y2 && isDigitChar y3 && isDigitChar y4 &&
       isDigitChar h1 && isDigitChar h2 && isDigitChar n1 && isDigitChar n2 &&
       (match rest with | [] => true | c :: _ => !isWordChar c) then
      some { day := 10 * dval d1 + dval d2,
             month := 10 * dval m1 + dval m2,
             year := 1000 * dval y1 + 100 * dval y2 + 10 * dval y3 + dval y4,
             hour := 10 * dval h1 + dval h2,
             minute := 10 * dval n1 + dval n2 }
    else none
  | _ => none

/-- Leftmost-match search of `DATE_PATTERN`, as `re.search` does.
`atBoundary` records whether the current position is preceded by the
start of the string or a non-word character (the pattern starts with
`\b` followed by a digit, so only such positions can match). -/
def searchFrom : Bool → List Char → Option Fields
  | _, [] => none
  | atBoundary, c :: cs =>
    match (if atBoundary then matchToken (c :: cs) else none) with
    | some f => some f
    | none => searchFrom (!isWordChar c) cs

/-- `DATE_PATTERN.search(line)`, returning the captured groups. -/
def findMatch (line : List Char) : Option Fields := searchFrom true line

/-- Python `str.strip()`: drop whitespace from both ends. -/
def pyStrip (l : List Char) : List Char :=
  ((l.dropWhile isSpaceChar).reverse.dropWhile isSpaceChar).reverse

/-- The marker sentinel of the scanner. -/
def sentinel : List Char := "DeployBot".data

/-- The test `line.strip() == "DeployBot"`. -/
def sentinelLine (l : List Char) : Bool := pyStrip l == sentinel

/-- Gregorian leap year, as `datetime` uses. -/
def isLeapYear (y : Nat) : Bool := (y % 4 == 0 && y % 100 != 0) || y % 400 == 0

/-- Length of a month in the proleptic Gregorian calendar. -/
def daysInMonth (y m : Nat) : Nat :=
  if m == 2 then (if isLeapYear y then 29 else 28)
  else if m == 4 || m == 6 || m == 9 || m == 11 then 30
  else 31

/-- The validity check `datetime.strptime` applies to the matched groups
of `"%d.%m.%Y %H:%M"`: a real calendar date in years 1–9999 and a real
time of day; anything else raises `ValueError`. -/
def validFields (f : Fields) : Bool :=
  1 ≤ f.year && f.year ≤ 9999 && 1 ≤ f.month && f.month ≤ 12 &&
  1 ≤ f.day && f.day ≤ daysInMonth f.year f.month &&
  f.hour ≤ 23 && f.minute ≤ 59

/-- The exception text standing for the `ValueError` of `strptime`. -/
def valueErrorMsg : String := "ValueError: invalid date or time"

/-- The datetime produced by a successful
`strptime(_, "%d.%m.%Y %H:%M")`: seconds and microseconds are 0. -/
def mkValidDT (f : Fields) : PyDateTime :=
  { year := f.year, month := f.month, day := f.day,
    hour := f.hour, minute := f.minute, second := 0, microsecond := 0 }

/-- `datetime.strptime(match.group(1), "%d.%m.%Y %H:%M")`. -/
def strptime (f : Fields) : Except String PyDateTime :=
  if validFields f then .ok (mkValidDT f) else .error valueErrorMsg

/-- First `DATE_PATTERN` match over the lines of a window, in order:
the inner `for j in range(i, min(i + 6, len(lines)))` loop's search. -/
def windowMatch : List (List Char) → Option Fields
  | [] => none
  | l :: rest =>
    match findMatch l with
    | some f => some f
    | none => windowMatch rest

/-- The marker-scanning loop of `extract_deploy_times`: for each line
whose stripped content is the sentinel, take the first pattern match in
the window of that line and the five following ones, parse it (an
invalid date raises, aborting everything), append, and continue. -/
def scan : List (List Char) → Except String (List PyDateTime)
  | [] => .ok []
  | l :: rest =>
    if sentinelLine l then
      match windowMatch (List.take 6 (l :: rest)) with
      | none => scan rest
      | some f =>
        match strptime f with
        | .error e => .error e
        | .ok t => (scan rest).map (fun ts => t :: ts)
    else scan rest

/-- The de-duplication loop with its `seen` set, generalized over the
set already seen. -/
def dedupAux : List PyDateTime → List PyDateTime → List PyDateTime
  | _, [] => []
  | seen, t :: ts =>
    if t ∈ seen then dedupAux seen ts else t :: dedupAux (t :: seen) ts

/-- De-duplicate preserving first-seen order (`seen` starts empty). -/
def dedup (ts : List PyDateTime) : List PyDateTime := dedupAux [] ts

/-- `extract_deploy_times`: scan, then de-duplicate; an uncaught
`ValueError` from `strptime` escapes to the caller. -/
def extract_deploy_times (lines : List (List Char)) :
    Except String (List PyDateTime) :=
  (scan lines).map dedup

/-- Order-preserving injective key (on component-bounded datetimes) for
Python's field-lexicographic `datetime` comparison. -/
def toKey (t : PyDateTime) : Nat :=
  (((((t.year * 13 + t.month) * 32 + t.day) * 24 + t.hour) * 60 + t.minute)
      * 60 + t.second) * 1000000 + t.microsecond

/-- The chronological (total) order on datetimes. -/
def keyLe (a b : PyDateTime) : Prop := toKey a ≤ toKey b

instance : DecidableRel keyLe := fun a b => Nat.decLe _ _

instance : IsTotal PyDateTime keyLe := ⟨fun a b => Nat.le_total _ _⟩

instance : IsTrans PyDateTime keyLe := ⟨fun _ _ _ h h' => Nat.le_trans h h'⟩

/-- `times.sort()`: sort chronologically. -/
def sortTimes (ts : List PyDateTime) : List PyDateTime :=
  List.insertionSort keyLe ts

/-- The `SystemExit` message raised when no timestamps were found. -/
def noDataMsg : String := "No DeployBot timestamps found in history.txt"

/-- `main` up to the canonical series: extract, fail on an empty
result, else sort. -/
def mainSeries (lines : List (List Char)) :
    Except String (List PyDateTime) :=
  match extract_deploy_times lines with
  | .error e => .error e
  | .ok ts => if ts.isEmpty then .error noDataMsg else .ok (sortTimes ts)

/-- Days before January 1 of year `y` in the proleptic Gregorian
calendar, counted from year 1. -/
def daysBeforeYear (y : Nat) : Nat :=
  365 * (y - 1) + (y - 1) / 4 - (y - 1) / 100 + (y - 1) / 400

/-- Days in year `y` strictly before month `m`. -/
def daysBeforeMonth (y m : Nat) : Nat :=
  (List.range (m - 1)).foldl (fun acc k => acc + daysInMonth y (k + 1)) 0

/-- Proleptic-Gregorian day count of a datetime's date. -/
def toOrdinal (t : PyDateTime) : Nat :=
  daysBeforeYear t.year + daysBeforeMonth t.year t.month + (t.day - 1)

/-- Day count of the matplotlib epoch 1970-01-01. -/
def epochOrdinal : Nat := daysBeforeYear 1970

/-- `matplotlib.dates.date2num`: fractional days since
1970-01-01 00:00. -/
def date2num (t : PyDateTime) : ℚ :=
  ((toOrdinal t : ℤ) - (epochOrdinal : ℤ)) +
    ((t.hour * 3600 + t.minute * 60 + t.second : Nat) : ℚ) / 86400 +
    (t.microsecond : ℚ) / 86400000000

/-- `np.polyfit(x, y, 1)` as the closed-form least-squares line
(slope, intercept) over exact rationals. -/
def polyfit1 (x y : List ℚ) : ℚ × ℚ :=
  let n : ℚ := x.length
  let sx := x.sum
  let sy := y.sum
  let sxy := (List.zipWith (· * ·) x y).sum
  let sxx := (x.map (fun a => a * a)).sum
  let slope := (n * sxy - sx * sy) / (n * sxx - sx * sx)
  (slope, (sy - slope * sx) / n)

/-- The 1-based index list `y = list(range(1, len + 1))` of `main`. -/
def yIdx (n : Nat) : List Int :=
  (List.range n).map (fun k : Nat => (k : Int) + 1)

/-- `main` up to the fitted trend line: the series and
`np.polyfit(mdates.date2num(times), y, 1)`. -/
def mainFit (lines : List (List Char)) : Except String (ℚ × ℚ) :=
  (mainSeries lines).map (fun ts =>
    polyfit1 (ts.map date2num)
      ((List.range ts.length).map (fun k : Nat => (k : ℚ) + 1)))

/-- `times.index(d)`: index of the first occurrence. -/
def pyIndex : List PyDateTime → PyDateTime → Nat
  | [], _ => 0
  | t :: ts, d => if t = d then 0 else pyIndex ts d + 1

/-- `add_annotation`: if the target datetime is in the series, resolve
the `(time, y_val)` pair the annotation is drawn at; otherwise do
nothing. -/
def add_annotation (times : List PyDateTime) (y : List Int)
    (d : PyDateTime) : Option (PyDateTime × Int) :=
  if d ∈ times then
    some (times.getD (pyIndex times d) d, y.getD (pyIndex times d) 0)
  else none

/-- Positions of the marker lines, in order. -/
def markerPositions : List (List Char) → List Nat
  | [] => []
  | l :: rest =>
    (if sentinelLine l then [0] else []) ++ (markerPositions rest).map (· + 1)

/-- The lookahead window of a marker at position `i`: lines `i` through
`i + 5`, truncated at the end of the input. -/
def windowAt (lines : List (List Char)) (i : Nat) : List (List Char) :=
  (lines.drop i).take 6

/-- The first pattern match in the window of position `i`. -/
def candidateAt (lines : List (List Char)) (i : Nat) : Option Fields :=
  windowMatch (windowAt lines i)

/-- Field bounds every `strptime`-produced datetime satisfies; `toKey`
is injective and order-faithful on these. -/
def BoundedDT (t : PyDateTime) : Prop :=
  t.month ≤ 12 ∧ t.day ≤ 31 ∧ t.hour ≤ 23 ∧ t.minute ≤ 59 ∧
    t.second ≤ 59 ∧ t.microsecond < 1000000

/-- All pattern matches found in marker windows pass validation (the
condition under which no `ValueError` is raised). -/
def allCandidatesValid (lines : List (List Char)) : Bool :=
  (markerPositions lines).all fun i =>
    match candidateAt lines i with
    | none => true
    | some f => validFields f

/-- Convenience constructor for a line of input. -/
def lineOf (s : String) : List Char := s.data

/-! ### Character-level facts about the sentinel and the pattern -/

lemma sentinel_no_digit {c : Char} (h : c ∈ sentinel) : isDigitChar c = false := by
  have hs : sentinel = ['D', 'e', 'p', 'l', 'o', 'y', 'B', 'o', 't'] := rfl
  rw [hs] at h
  fin_cases h <;> rfl

lemma spaceChar_not_digit {c : Char} (h : isSpaceChar c = true) :
    isDigitChar c = false := by
  simp only [isSpaceChar, Bool.or_eq_true, beq_iff_eq] at h
  rcases h with ((((h | h) | h) | h) | h) | h <;> subst h <;> rfl

lemma mem_pyStrip {c : Char} {l : List Char} (h : c ∈ l) :
    isSpaceChar c = true ∨ c ∈ pyStrip l := by
  rw [← List.takeWhile_append_dropWhile isSpaceChar l, List.mem_append] at h
  rcases h with h | h
  · exact Or.inl (List.mem_takeWhile_imp h)
  · set m := l.dropWhile isSpaceChar with hm
    have h2 : c ∈ m.reverse := List.mem_reverse.mpr h
    rw [← List.takeWhile_append_dropWhile isSpaceChar m.reverse,
      List.mem_append] at h2
    rcases h2 with h2 | h2
    · exact Or.inl (List.mem_takeWhile_imp h2)
    · exact Or.inr (List.mem_reverse.mpr h2)

lemma sentinelLine_no_digit {l : List Char} (h : sentinelLine l = true) :
    ∀ c ∈ l, isDigitChar c = false := by
  intro c hc
  have hst : pyStrip l = sentinel := by
    simpa [sentinelLine] using h
  rcases mem_pyStrip hc with hsp | hmem
  · exact spaceChar_not_digit hsp
  · exact sentinel_no_digit (hst ▸ hmem)

lemma matchToken_head_digit {l : List Char} {f : Fields}
    (h : matchToken l = some f) :
    ∃ c cs, l = c :: cs ∧ isDigitChar c = true := by
  unfold matchToken at h
  split at h
  · split at h
    · rename_i hcond
      simp only [Bool.and_eq_true] at hcond
      exact ⟨_, _, rfl, hcond.1.1.1.1.1.1.1.1.1.1.1.1⟩
    · exact absurd h (by simp)
  · exact absurd h (by simp)

lemma searchFrom_eq_none {l : List Char}
    (h : ∀ c ∈ l, isDigitChar c = false) (b : Bool) :
    searchFrom b l = none := by
  induction l generalizing b with
  | nil => rfl
  | cons c cs ih =>
    have hmt : (if b then matchToken (c :: cs) else none) = none := by
      cases b
      · rfl
      · simp only [if_true]
        cases hm : matchToken (c :: cs) with
        | none => rfl
        | some f =>
          obtain ⟨d, ds, heq, hd⟩ := matchToken_head_digit hm
          have hc : c = d := by injection heq
          rw [← hc] at hd
          rw [h c (List.mem_cons_self c cs)] at hd
          exact absurd hd (by simp)
    simp only [searchFrom, hmt]
    exact ih (fun x hx => h x (List.mem_cons_of_mem c hx)) _

lemma findMatch_sentinel {l : List Char} (h : sentinelLine l = true) :
    findMatch l = none :=
  searchFrom_eq_none (sentinelLine_no_digit h) true

/-! ### Structure of the marker scan -/

lemma candidateAt_cons_succ (l : List Char) (rest : List (List Char)) (i : Nat) :
    candidateAt (l :: rest) (i + 1) = candidateAt rest i := rfl

lemma candidateAt_cons_zero (l : List Char) (rest : List (List Char)) :
    candidateAt (l :: rest) 0 = windowMatch (l :: List.take 5 rest) := rfl

lemma mem_markerPositions_succ {rest : List (List Char)} {l : List Char} {i : Nat}
    (h : (i + 1) ∈ markerPositions (l :: rest)) : i ∈ markerPositions rest := by
  simp only [markerPositions, List.mem_append, List.mem_map] at h
  rcases h with h | ⟨j, hj, hji⟩
  · split at h <;> simp at h
  · have : j = i := by omega
    exact this ▸ hj

lemma mem_markerPositions_succ_of_mem {rest : List (List Char)} {l : List Char}
    {i : Nat} (h : i ∈ markerPositions rest) :
    (i + 1) ∈ markerPositions (l :: rest) := by
  simp only [markerPositions, List.mem_append, List.mem_map]
  exact Or.inr ⟨i, h, rfl⟩

lemma zero_mem_markerPositions {rest : List (List Char)} {l : List Char}
    (h : sentinelLine l = true) : 0 ∈ markerPositions (l :: rest) := by
  simp [markerPositions, h]

lemma zero_mem_markerPositions_iff {rest : List (List Char)} {l : List Char} :
    0 ∈ markerPositions (l :: rest) ↔ sentinelLine l = true := by
  simp only [markerPositions, List.mem_append, List.mem_map]
  constructor
  · intro h
    rcases h with h | ⟨j, _, hji⟩
    · by_cases hs : sentinelLine l
      · exact hs
      · simp [hs] at h
    · omega
  · intro h
    exact Or.inl (by simp [h])

/-- The scan, under the no-exception condition, produces exactly one
parsed instant per marker whose window has a pattern match, from the
first matching line of that window, in marker order. -/
lemma scan_eq_of_valid {lines : List (List Char)}
    (h : ∀ i ∈ markerPositions lines, ∀ f, candidateAt lines i = some f →
      validFields f = true) :
    scan lines = .ok ((markerPositions lines).filterMap fun i =>
      (candidateAt lines i).map mkValidDT) := by
  induction lines with
  | nil => rfl
  | cons l rest ih =>
    have hshift : ∀ i ∈ markerPositions rest, ∀ f,
        candidateAt rest i = some f → validFields f = true := by
      intro i hi f hf
      exact h (i + 1) (mem_markerPositions_succ_of_mem hi) f
        ((candidateAt_cons_succ l rest i) ▸ hf)
    have hmapshift :
        ((markerPositions rest).map (· + 1)).filterMap
            (fun i => (candidateAt (l :: rest) i).map mkValidDT) =
          (markerPositions rest).filterMap
            (fun i => (candidateAt rest i).map mkValidDT) := by
      rw [List.filterMap_map]
      rfl
    by_cases hs : sentinelLine l
    · simp only [markerPositions, hs, if_true, List.filterMap_append, hmapshift]
      cases hc : windowMatch (l :: List.take 5 rest) with
      | none =>
        simp only [scan, hs, if_true, List.take_succ_cons, hc]
        rw [ih hshift]
        have h0 : List.filterMap
            (fun i => (candidateAt (l :: rest) i).map mkValidDT) [0] = [] := by
          simp [List.filterMap_cons, candidateAt_cons_zero, hc]
        rw [h0, List.nil_append]
      | some f =>
        have hv : validFields f = true :=
          h 0 (zero_mem_markerPositions hs) f
            ((candidateAt_cons_zero l rest) ▸ hc)
        simp only [scan, hs, if_true, List.take_succ_cons, hc, strptime, hv,
          if_true]
        rw [ih hshift]
        have h0 : List.filterMap
            (fun i => (candidateAt (l :: rest) i).map mkValidDT) [0] =
            [mkValidDT f] := by
          simp [List.filterMap_cons, candidateAt_cons_zero, hc]
        rw [h0]
        rfl
    · have hmp : markerPositions (l :: rest) =
          (markerPositions rest).map (· + 1) := by
        simp [markerPositions, hs]
      simp only [scan, hs, if_false, hmp, hmapshift]
      exact ih hshift

/-- If the scan returned normally, every pattern match in a marker
window passed validation. -/
lemma scan_ok_all_valid {lines : List (List Char)} {ts : List PyDateTime}
    (h : scan lines = .ok ts) :
    ∀ i ∈ markerPositions lines, ∀ f, candidateAt lines i = some f →
      validFields f = true := by
  induction lines generalizing ts with
  | nil =>
    intro i hi
    simp [markerPositions] at hi
  | cons l rest ih =>
    intro i hi f hf
    by_cases hs : sentinelLine l
    · cases hc : windowMatch (l :: List.take 5 rest) with
      | none =>
        have hrest : scan rest = .ok ts := by
          simpa [scan, hs, List.take_succ_cons, hc] using h
        match i with
        | 0 =>
          rw [candidateAt_cons_zero, hc] at hf
          exact absurd hf (by simp)
        | i + 1 =>
          exact ih hrest i (mem_markerPositions_succ hi) f
            ((candidateAt_cons_succ l rest i) ▸ hf)
      | some g =>
        cases hv : validFields g with
        | false =>
          have : scan (l :: rest) = .error valueErrorMsg := by
            simp [scan, hs, List.take_succ_cons, hc, strptime, hv]
          rw [this] at h
          exact absurd h (by simp)
        | true =>
          have hsc : scan (l :: rest) =
              (scan rest).map (fun ts => mkValidDT g :: ts) := by
            simp [scan, hs, List.take_succ_cons, hc, strptime, hv]
          rw [hsc] at h
          obtain ⟨ts', hts', -⟩ : ∃ ts', scan rest = .ok ts' ∧
              ts = mkValidDT g :: ts' := by
            cases hr : scan rest with
            | error e => rw [hr] at h; exact absurd h (by simp [Except.map])
            | ok ts' =>
              rw [hr] at h
              exact ⟨ts', rfl, by simpa [Except.map] using h.symm⟩
          match i with
          | 0 =>
            rw [candidateAt_cons_zero, hc] at hf
            have : g = f := by injection hf
            exact this ▸ hv
          | i + 1 =>
            exact ih hts' i (mem_markerPositions_succ hi) f
              ((candidateAt_cons_succ l rest i) ▸ hf)
    · have hrest : scan rest = .ok ts := by
        simpa [scan, hs] using h
      match i with
      | 0 =>
        rw [zero_mem_markerPositions_iff] at hi
        exact absurd hi hs
      | i + 1 =>
        exact ih hrest i (mem_markerPositions_succ hi) f
          ((candidateAt_cons_succ l rest i) ▸ hf)

lemma scan_ok_eq {lines : List (List Char)} {ts : List PyDateTime}
    (h : scan lines = .ok ts) :
    ts = (markerPositions lines).filterMap fun i =>
      (candidateAt lines i).map mkValidDT := by
  have := scan_eq_of_valid (scan_ok_all_valid h)
  rw [h] at this
  injection this

lemma scan_ok_shape {lines : List (List Char)} {ts : List PyDateTime}
    (h : scan lines = .ok ts) :
    ∀ t ∈ ts, ∃ f, validFields f = true ∧ t = mkValidDT f := by
  intro t ht
  rw [scan_ok_eq h] at ht
  obtain ⟨i, hi, hfi⟩ := List.mem_filterMap.mp ht
  obtain ⟨f, hf, hft⟩ := Option.map_eq_some'.mp hfi
  exact ⟨f, scan_ok_all_valid h i hi f hf, hft.symm⟩

lemma scan_ok_mem {lines : List (List Char)} {ts : List PyDateTime}
    {i : Nat} {f : Fields} (h : scan lines = .ok ts)
    (hi : i ∈ markerPositions lines) (hc : candidateAt lines i = some f) :
    mkValidDT f ∈ ts := by
  rw [scan_ok_eq h]
  exact List.mem_filterMap.mpr ⟨i, hi, by rw [hc]; rfl⟩

lemma extract_ok_elim {lines : List (List Char)} {ts : List PyDateTime}
    (h : extract_deploy_times lines = .ok ts) :
    ∃ ts₀, scan lines = .ok ts₀ ∧ ts = dedup ts₀ := by
  unfold extract_deploy_times at h
  cases hs : scan lines with
  | error e => rw [hs] at h; exact absurd h (by simp [Except.map])
  | ok ts₀ =>
    rw [hs] at h
    exact ⟨ts₀, rfl, by simpa [Except.map] using h.symm⟩

lemma length_mem_markerPositions_append {pre tail : List (List Char)}
    {l : List Char} (h : sentinelLine l = true) :
    pre.length ∈ markerPositions (pre ++ l :: tail) := by
  induction pre with
  | nil => exact zero_mem_markerPositions h
  | cons p pre ih => exact mem_markerPositions_succ_of_mem ih

lemma candidateAt_append (pre tail : List (List Char)) :
    candidateAt (pre ++ tail) pre.length = windowMatch (tail.take 6) := by
  unfold candidateAt windowAt
  rw [List.drop_left]

/-! ### De-duplication -/

lemma mem_dedupAux {t : PyDateTime} :
    ∀ {l seen : List PyDateTime},
      (t ∈ dedupAux seen l ↔ t ∈ l ∧ t ∉ seen)
  | [], seen => by simp [dedupAux]
  | u :: l, seen => by
    by_cases hu : u ∈ seen
    · rw [dedupAux, if_pos hu]
      constructor
      · intro h
        obtain ⟨h1, h2⟩ := mem_dedupAux.mp h
        exact ⟨List.mem_cons_of_mem u h1, h2⟩
      · rintro ⟨h1, h2⟩
        rcases List.mem_cons.mp h1 with h | h
        · exact absurd (h ▸ hu) h2
        · exact mem_dedupAux.mpr ⟨h, h2⟩
    · rw [dedupAux, if_neg hu]
      constructor
      · intro h
        rcases List.mem_cons.mp h with h | h
        · subst h
          exact ⟨List.mem_cons_self t l, hu⟩
        · obtain ⟨h1, h2⟩ := mem_dedupAux.mp h
          exact ⟨List.mem_cons_of_mem u h1,
            fun hs => h2 (List.mem_cons_of_mem u hs)⟩
      · rintro ⟨h1, h2⟩
        rcases List.mem_cons.mp h1 with h | h
        · rw [h]
          exact List.mem_cons_self u _
        · by_cases htu : t = u
          · rw [htu]
            exact List.mem_cons_self u _
          · refine List.mem_cons_of_mem u (mem_dedupAux.mpr ⟨h, ?_⟩)
            intro hs
            rcases List.mem_cons.mp hs with h' | h'
            · exact htu h'
            · exact h2 h'

lemma mem_dedup {t : PyDateTime} {l : List PyDateTime} :
    t ∈ dedup l ↔ t ∈ l := by
  simp [dedup, mem_dedupAux]

lemma nodup_dedupAux : ∀ (l seen : List PyDateTime), (dedupAux seen l).Nodup
  | [], _ => List.nodup_nil
  | u :: l, seen => by
    by_cases hu : u ∈ seen
    · simpa [dedupAux, if_pos hu] using nodup_dedupAux l seen
    · simp only [dedupAux, if_neg hu, List.nodup_cons]
      refine ⟨fun hmem => ?_, nodup_dedupAux l (u :: seen)⟩
      exact (mem_dedupAux.mp hmem).2 (List.mem_cons_self u seen)

lemma nodup_dedup (l : List PyDateTime) : (dedup l).Nodup :=
  nodup_dedupAux l []

lemma dedupAux_eq_self :
    ∀ {l seen : List PyDateTime}, l.Nodup → (∀ t ∈ l, t ∉ seen) →
      dedupAux seen l = l
  | [], _, _, _ => rfl
  | u :: l, seen, hnd, hdisj => by
    have hu : u ∉ seen := hdisj u (List.mem_cons_self u l)
    rw [dedupAux, if_neg hu]
    congr 1
    refine dedupAux_eq_self (List.nodup_cons.mp hnd).2 ?_
    intro t ht
    simp only [List.mem_cons]
    rintro (h | h)
    · exact (List.nodup_cons.mp hnd).1 (h ▸ ht)
    · exact hdisj t (List.mem_cons_of_mem u ht) h

lemma dedup_eq_self {l : List PyDateTime} (h : l.Nodup) : dedup l = l :=
  dedupAux_eq_self h (by simp)

/-! ### The chronological key -/

lemma daysInMonth_le_31 (y m : Nat) : daysInMonth y m ≤ 31 := by
  unfold daysInMonth
  split <;> split <;> omega

lemma boundedDT_mkValidDT {f : Fields} (h : validFields f = true) :
    BoundedDT (mkValidDT f) := by
  have hd31 := daysInMonth_le_31 f.year f.month
  simp only [validFields, Bool.and_eq_true, decide_eq_true_eq] at h
  simp only [BoundedDT, mkValidDT]
  omega

lemma toKey_inj {a b : PyDateTime} (ha : BoundedDT a) (hb : BoundedDT b)
    (h : toKey a = toKey b) : a = b := by
  obtain ⟨ya, moa, da, ha', mia, sa, usa⟩ := a
  obtain ⟨yb, mob, db, hb', mib, sb, usb⟩ := b
  simp only [BoundedDT] at ha hb
  simp only [toKey] at h
  simp only [PyDateTime.mk.injEq]
  omega

lemma sortTimes_perm (ts : List PyDateTime) : (sortTimes ts).Perm ts :=
  List.perm_insertionSort keyLe ts

lemma sortTimes_sorted (ts : List PyDateTime) :
    List.Sorted keyLe (sortTimes ts) :=
  List.sorted_insertionSort keyLe ts

/-! ### Annotation lookup -/

lemma pyIndex_lt_length {d : PyDateTime} :
    ∀ {times : List PyDateTime}, d ∈ times → pyIndex times d < times.length
  | [], h => absurd h (List.not_mem_nil d)
  | t :: ts, h => by
    by_cases htd : t = d
    · simp [pyIndex, htd]
    · rw [pyIndex, if_neg htd]
      have hd : d ∈ ts := by
        rcases List.mem_cons.mp h with h' | h'
        · exact absurd h'.symm htd
        · exact h'
      simpa [List.length_cons] using Nat.succ_lt_succ (pyIndex_lt_length hd)

lemma getD_pyIndex {d d' : PyDateTime} :
    ∀ {times : List PyDateTime}, d ∈ times →
      times.getD (pyIndex times d) d' = d
  | [], h => absurd h (List.not_mem_nil d)
  | t :: ts, h => by
    by_cases htd : t = d
    · simp [pyIndex, htd, List.getD_cons_zero]
    · rw [pyIndex, if_neg htd]
      have hd : d ∈ ts := by
        rcases List.mem_cons.mp h with h' | h'
        · exact absurd h'.symm htd
        · exact h'
      simpa [List.getD_cons_succ] using getD_pyIndex hd

lemma yIdx_getD {n k : Nat} (h : k < n) :
    (yIdx n).getD k 0 = (k : Int) + 1 := by
  rw [yIdx, List.getD_eq_getElem?_getD, List.getElem?_map,
    List.getElem?_range h]
  rfl

/-! ### Concrete inputs used in counterexamples and witnesses -/

/-- A marker whose window's first pattern match is an invalid date
(month 13), followed by a second marker with a valid timestamp. -/
def c1lines : List (List Char) :=
  [lineOf "DeployBot", lineOf "01.13.2026 12:23",
   lineOf "DeployBot", lineOf "02.02.2026 10:00"]

/-- The sentinel, an em-dash separator and a valid timestamp on one
line. -/
def c2sameLine : List Char := lineOf "DeployBot — 02.09.2026 12:23"

/-- A marker whose only nearby timestamp sits on the 7th line after the
marker, outside the lookahead window. -/
def c2farLines : List (List Char) :=
  [lineOf "DeployBot", lineOf "", lineOf "", lineOf "", lineOf "",
   lineOf "", lineOf "", lineOf "01.01.2026 10:00"]

/-- One marker with one valid timestamp: a singleton series. -/
def c3lines : List (List Char) :=
  [lineOf "DeployBot", lineOf "01.01.2026 10:00"]

/-- A marker whose window's first pattern match is invalid while a
later window line holds a valid timestamp. -/
def c4lines : List (List Char) :=
  [lineOf "DeployBot", lineOf "05.13.2026 10:00", lineOf "05.12.2026 10:00"]

/-- A benign input for the refined scan equation: one marker, one
valid timestamp two lines below. -/
def c4wlines : List (List Char) :=
  [lineOf "DeployBot", lineOf "xx", lineOf "07.04.2026 09:30"]

/-- Two markers whose windows reach the same timestamp line. -/
def c5lines : List (List Char) :=
  [lineOf "DeployBot", lineOf "DeployBot", lineOf "01.01.2026 10:00"]

/-- The script's first annotation target, 10.12.2025 05:15. -/
def annT1 : PyDateTime := ⟨2025, 12, 10, 5, 15, 0, 0⟩

/-- The script's second annotation target, 30.01.2026 02:50. -/
def annT2 : PyDateTime := ⟨2026, 1, 30, 2, 50, 0, 0⟩

/-- The script's third annotation target, 12.11.2025 14:44. -/
def annT3 : PyDateTime := ⟨2025, 11, 12, 14, 44, 0, 0⟩

/-- A two-element series containing the first two targets only. -/
def annSeries : List PyDateTime := [annT1, annT2]

/-- The matplotlib epoch instant, and the two following midnights. -/
def w7t1 : PyDateTime := ⟨1970, 1, 1, 0, 0, 0, 0⟩

/-- One day after `w7t1`. -/
def w7t2 : PyDateTime := ⟨1970, 1, 2, 0, 0, 0, 0⟩

/-- Two days after `w7t1`. -/
def w7t3 : PyDateTime := ⟨1970, 1, 3, 0, 0, 0, 0⟩

/-! ### Claim theorems -/

/-- C6: if the final deduplicated series is empty, the pipeline
terminates abnormally with the human-readable `SystemExit` diagnostic,
and no fitted output is produced downstream. -/
theorem c6_empty_series_is_fatal (lines : List (List Char))
    (h : extract_deploy_times lines = .ok []) :
    mainSeries lines = .error noDataMsg ∧ mainFit lines = .error noDataMsg := by
  have hm : mainSeries lines = .error noDataMsg := by
    unfold mainSeries
    rw [h]
    rfl
  refine ⟨hm, ?_⟩
  unfold mainFit
  rw [hm]
  rfl

/-- Witness for C6 at a concrete marker-free input. -/
theorem c6_witness :
    mainSeries [lineOf "no markers here"] = .error noDataMsg ∧
      mainFit [lineOf "no markers here"] = .error noDataMsg :=
  c6_empty_series_is_fatal [lineOf "no markers here"] rfl

/-- C8: an annotation whose target instant is absent from the series is
a no-op; one whose target is present resolves to exactly that entry and
its 1-based index in the parallel `y` list. -/
theorem c8_annotation_resolution (times : List PyDateTime) (d : PyDateTime) :
    (d ∉ times → add_annotation times (yIdx times.length) d = none) ∧
    (d ∈ times → pyIndex times d < times.length ∧
      add_annotation times (yIdx times.length) d =
        some (d, (pyIndex times d : Int) + 1)) := by
  constructor
  · intro h
    unfold add_annotation
    rw [if_neg h]
  · intro h
    refine ⟨pyIndex_lt_length h, ?_⟩
    unfold add_annotation
    rw [if_pos h, getD_pyIndex h, yIdx_getD (pyIndex_lt_length h)]

/-- Witness for C8: a present target resolves, an absent one is
skipped. -/
theorem c8_witness :
    (pyIndex annSeries annT2 < annSeries.length ∧
      add_annotation annSeries (yIdx annSeries.length) annT2 =
        some (annT2, (pyIndex annSeries annT2 : Int) + 1)) ∧
    add_annotation annSeries (yIdx annSeries.length) annT3 = none :=
  ⟨(c8_annotation_resolution annSeries annT2).2 (by decide),
   (c8_annotation_resolution annSeries annT3).1 (by decide)⟩

/-- C9: a line whose stripped content equals the sentinel contains no
pattern match, so window position `i` never parses and a marker's
effective search window is lines `i+1` through `i+5` only. -/
theorem c9_marker_line_never_matches (l : List Char) (rest : List (List Char))
    (h : sentinelLine l = true) :
    findMatch l = none ∧
      windowMatch (List.take 6 (l :: rest)) = windowMatch (List.take 5 rest) := by
  have hf := findMatch_sentinel h
  refine ⟨hf, ?_⟩
  rw [List.take_succ_cons]
  simp [windowMatch, hf]

/-- Witness for C9 at a concrete whitespace-padded marker line. -/
theorem c9_witness :
    findMatch (lineOf "  DeployBot  ") = none ∧
      windowMatch (List.take 6
          (lineOf "  DeployBot  " :: [lineOf "x 01.01.2026 10:00"])) =
        windowMatch (List.take 5 [lineOf "x 01.01.2026 10:00"]) :=
  c9_marker_line_never_matches (lineOf "  DeployBot  ")
    [lineOf "x 01.01.2026 10:00"] rfl

/-- C10: every instant extracted by `extract_deploy_times` carries only
day, month, year, hour and minute; its seconds and microseconds are
zero. -/
theorem c10_minute_precision (lines : List (List Char))
    (ts : List PyDateTime) (h : extract_deploy_times lines = .ok ts) :
    ∀ t ∈ ts, t.second = 0 ∧ t.microsecond = 0 := by
  obtain ⟨ts₀, hscan, hts⟩ := extract_ok_elim h
  intro t ht
  rw [hts] at ht
  obtain ⟨f, -, htf⟩ := scan_ok_shape hscan t (mem_dedup.mp ht)
  rw [htf]
  exact ⟨rfl, rfl⟩

/-- Witness for C10 at a concrete extraction. -/
theorem c10_witness :
    (mkValidDT ⟨1, 1, 2026, 10, 0⟩).second = 0 ∧
      (mkValidDT ⟨1, 1, 2026, 10, 0⟩).microsecond = 0 :=
  c10_minute_precision c3lines [mkValidDT ⟨1, 1, 2026, 10, 0⟩] rfl
    (mkValidDT ⟨1, 1, 2026, 10, 0⟩) (List.mem_cons_self _ _)

/-- C5: the final series (dedup in first-seen order, then sort) is
strictly increasing in time with no duplicate instants, re-running
dedup + sort on it returns it unchanged, and two markers that emit the
identical timestamp collapse to one entry. -/
theorem c5_series_strict_unique_idempotent :
    (∀ lines ts, extract_deploy_times lines = .ok ts →
      List.Pairwise (fun a b => toKey a < toKey b) (sortTimes ts) ∧
      (sortTimes ts).Nodup ∧
      sortTimes (dedup (sortTimes ts)) = sortTimes ts) ∧
    extract_deploy_times c5lines = .ok [mkValidDT ⟨1, 1, 2026, 10, 0⟩] := by
  constructor
  · intro lines ts h
    obtain ⟨ts₀, hscan, hts⟩ := extract_ok_elim h
    have hnd : ts.Nodup := hts ▸ nodup_dedup ts₀
    have hperm := sortTimes_perm ts
    have hnds : (sortTimes ts).Nodup := hperm.symm.nodup hnd
    have hsorted := sortTimes_sorted ts
    have hbnd : ∀ t ∈ sortTimes ts, BoundedDT t := by
      intro t ht
      have ht2 : t ∈ ts := hperm.mem_iff.mp ht
      rw [hts] at ht2
      obtain ⟨f, hv, htf⟩ := scan_ok_shape hscan t (mem_dedup.mp ht2)
      exact htf ▸ boundedDT_mkValidDT hv
    refine ⟨?_, hnds, ?_⟩
    · have hcomb : List.Pairwise (fun a b => keyLe a b ∧ a ≠ b)
          (sortTimes ts) := List.Pairwise.and hsorted hnds
      refine List.Pairwise.imp_of_mem ?_ hcomb
      intro a b ha hb hab
      exact lt_of_le_of_ne hab.1
        (fun hk => hab.2 (toKey_inj (hbnd a ha) (hbnd b hb) hk))
    · rw [dedup_eq_self hnds]
      exact List.Sorted.insertionSort_eq hsorted
  · rfl

/-- Witness for C5 at a concrete singleton extraction. -/
theorem c5_witness :
    List.Pairwise (fun a b => toKey a < toKey b)
        (sortTimes [mkValidDT ⟨1, 1, 2026, 10, 0⟩]) ∧
      (sortTimes [mkValidDT ⟨1, 1, 2026, 10, 0⟩]).Nodup ∧
      sortTimes (dedup (sortTimes [mkValidDT ⟨1, 1, 2026, 10, 0⟩])) =
        sortTimes [mkValidDT ⟨1, 1, 2026, 10, 0⟩] :=
  c5_series_strict_unique_idempotent.1 c3lines
    [mkValidDT ⟨1, 1, 2026, 10, 0⟩] rfl

/-- C1 counterexample: an in-window line matching the pattern but
denoting month 13 makes the whole extraction raise; the failure
propagates and the later marker with a valid timestamp is never
reached, instead of the marker being skipped and scanning continuing. -/
theorem c1_counterexample :
    extract_deploy_times c1lines = .error valueErrorMsg := rfl

/-- C1 (amended): extraction fails exactly when some marker's window
has a first pattern match that is an invalid calendar date or time;
only a window with no pattern match at all is treated as "no timestamp"
with the marker skipped and scanning continuing. -/
theorem c1_invalid_date_aborts_extraction (lines : List (List Char)) :
    (∃ e, extract_deploy_times lines = .error e) ↔
      ∃ i ∈ markerPositions lines, ∃ f,
        candidateAt lines i = some f ∧ validFields f = false := by
  constructor
  · rintro ⟨e, he⟩
    by_contra hno
    push_neg at hno
    have hvalid : ∀ i ∈ markerPositions lines, ∀ f,
        candidateAt lines i = some f → validFields f = true := by
      intro i hi f hf
      cases hb : validFields f with
      | false => exact absurd hb (hno i hi f hf)
      | true => rfl
    have hok := scan_eq_of_valid hvalid
    unfold extract_deploy_times at he
    rw [hok] at he
    exact absurd he (by simp [Except.map])
  · rintro ⟨i, hi, f, hc, hv⟩
    cases hs : scan lines with
    | error e =>
      refine ⟨e, ?_⟩
      unfold extract_deploy_times
      rw [hs]
      rfl
    | ok ts =>
      have := scan_ok_all_valid hs i hi f hc
      rw [this] at hv
      exact absurd hv (by simp)

/-- C2 counterexample: a single line carrying the sentinel, an em-dash
separator and a valid timestamp is not a marker (exact match after
strip fails), so the same-line timestamp is not captured. -/
theorem c2_counterexample :
    findMatch c2sameLine = some ⟨2, 9, 2026, 12, 23⟩ ∧
      validFields ⟨2, 9, 2026, 12, 23⟩ = true ∧
      extract_deploy_times [c2sameLine] = .ok [] :=
  ⟨rfl, rfl, rfl⟩

/-- C2 (amended): a valid timestamp on the line immediately after a
marker is captured whenever extraction returns; a line containing a
pattern match can never itself be a marker, so same-line capture is
impossible; a timestamp whose only occurrence is on the 7th line after
the marker is not captured. -/
theorem c2_next_line_captured_window_bounded :
    (∀ (pre : List (List Char)) (mkLine nxLine : List Char)
        (tail : List (List Char)) (f : Fields) (ts : List PyDateTime),
      sentinelLine mkLine = true →
      findMatch nxLine = some f →
      extract_deploy_times (pre ++ mkLine :: nxLine :: tail) = .ok ts →
      mkValidDT f ∈ ts) ∧
    (∀ (l : List Char) (f : Fields), findMatch l = some f →
      sentinelLine l = false) ∧
    extract_deploy_times c2farLines = .ok [] := by
  refine ⟨?_, ?_, rfl⟩
  · intro pre mkLine nxLine tail f ts hs hn h
    obtain ⟨ts₀, hscan, hts⟩ := extract_ok_elim h
    have hcand : candidateAt (pre ++ mkLine :: nxLine :: tail) pre.length =
        some f := by
      rw [candidateAt_append]
      rw [List.take_succ_cons, List.take_succ_cons]
      simp [windowMatch, findMatch_sentinel hs, hn]
    have hmem := scan_ok_mem hscan (length_mem_markerPositions_append hs) hcand
    rw [hts]
    exact mem_dedup.mpr hmem
  · intro l f hf
    cases hs : sentinelLine l with
    | false => rfl
    | true =>
      rw [findMatch_sentinel hs] at hf
      exact absurd hf (by simp)

/-- Witness for C2 at a concrete marker/next-line input. -/
theorem c2_witness :
    mkValidDT ⟨1, 1, 2026, 10, 0⟩ ∈ [mkValidDT ⟨1, 1, 2026, 10, 0⟩] :=
  c2_next_line_captured_window_bounded.1 [] (lineOf "DeployBot")
    (lineOf "01.01.2026 10:00") [] ⟨1, 1, 2026, 10, 0⟩
    [mkValidDT ⟨1, 1, 2026, 10, 0⟩] rfl rfl rfl

/-- C3 counterexample: a deduplicated series of exactly one instant
passes the guard (which tests only emptiness) and the least-squares fit
is attempted on it, instead of N < 2 being rejected or flagged. -/
theorem c3_counterexample :
    mainSeries c3lines = .ok [mkValidDT ⟨1, 1, 2026, 10, 0⟩] ∧
      (mainFit c3lines).isOk = true :=
  ⟨rfl, rfl⟩

/-- C3 (amended): the pipeline explicitly guards only the empty series
(`raise SystemExit`); any nonempty series — a singleton included —
passes the guard and reaches the fit. -/
theorem c3_only_empty_series_guarded (lines : List (List Char))
    (ts : List PyDateTime) (h : extract_deploy_times lines = .ok ts) :
    (ts = [] → mainSeries lines = .error noDataMsg) ∧
    (ts ≠ [] → mainSeries lines = .ok (sortTimes ts)) ∧
    (ts ≠ [] → (mainFit lines).isOk = true) := by
  cases ts with
  | nil =>
    refine ⟨fun _ => ?_, fun hne => absurd rfl hne, fun hne => absurd rfl hne⟩
    unfold mainSeries
    rw [h]
    rfl
  | cons t rest =>
    have hm : mainSeries lines = .ok (sortTimes (t :: rest)) := by
      unfold mainSeries
      rw [h]
      rfl
    refine ⟨fun heq => absurd heq (by simp), fun _ => hm, fun _ => ?_⟩
    unfold mainFit
    rw [hm]
    rfl

/-- Witness for C3 at the concrete singleton series. -/
theorem c3_witness :
    mainSeries c3lines = .ok (sortTimes [mkValidDT ⟨1, 1, 2026, 10, 0⟩]) ∧
      (mainFit c3lines).isOk = true :=
  ⟨(c3_only_empty_series_guarded c3lines [mkValidDT ⟨1, 1, 2026, 10, 0⟩]
      rfl).2.1 (by simp),
   (c3_only_empty_series_guarded c3lines [mkValidDT ⟨1, 1, 2026, 10, 0⟩]
      rfl).2.2 (by simp)⟩

/-- C4 counterexample: the scanner takes the first line with a pattern
match, not the first line with a successful parse — here the first
match (month 13) is invalid and extraction aborts even though a later
window line parses fine. -/
theorem c4_counterexample :
    findMatch (c4lines.getD 2 []) = some ⟨5, 12, 2026, 10, 0⟩ ∧
      validFields ⟨5, 12, 2026, 10, 0⟩ = true ∧
      extract_deploy_times c4lines = .error valueErrorMsg :=
  ⟨rfl, rfl, rfl⟩

/-- C4 (amended): when every in-window first match is valid, the scan
examines for each marker at `i` exactly lines `i` … `i+5` (truncated at
the end), emits the instant parsed from the first line with a pattern
match and stops — one candidate per such marker, in order — and a
marker whose window has no match contributes nothing. -/
theorem c4_first_match_per_marker (lines : List (List Char))
    (h : allCandidatesValid lines = true) :
    scan lines = .ok ((markerPositions lines).filterMap fun i =>
      (candidateAt lines i).map mkValidDT) := by
  refine scan_eq_of_valid ?_
  intro i hi f hf
  have hall := (List.all_eq_true.mp h) i hi
  rw [hf] at hall
  simpa using hall

/-- Witness for C4 at a concrete one-marker input. -/
theorem c4_witness :
    scan c4wlines = .ok ((markerPositions c4wlines).filterMap fun i =>
      (candidateAt c4wlines i).map mkValidDT) :=
  c4_first_match_per_marker c4wlines rfl

lemma polyfit1_consecutive (a : ℚ) :
    polyfit1 [a, a + 1, a + 2] [1, 2, 3] = (1, 1 - a) := by
  unfold polyfit1
  simp only [List.length_cons, List.length_nil, List.sum_cons, List.sum_nil,
    List.zipWith_cons_cons, List.zipWith_nil_left, List.map_cons, List.map_nil]
  norm_num
  have hN : 3 * (a + ((a + 1) * 2 + (a + 2) * 3)) - (a + (a + 1 + (a + 2))) * 6
      = (6 : ℚ) := by ring
  have hD : 3 * (a * a + ((a + 1) * (a + 1) + (a + 2) * (a + 2))) -
      (a + (a + 1 + (a + 2))) * (a + (a + 1 + (a + 2))) = (6 : ℚ) := by ring
  rw [hN, hD]
  have h66 : (6 : ℚ) / 6 = 1 := by norm_num
  rw [h66]
  constructor
  · rfl
  · ring

/-- C7: for three instants evenly spaced by one day paired with indices
1, 2, 3, the least-squares line has slope exactly 1 event per day and
intercept `1 - slope * date2num t1` (exact rational arithmetic, hence
within any floating tolerance). -/
theorem c7_even_spacing_unit_slope (t1 t2 t3 : PyDateTime)
    (h2 : date2num t2 = date2num t1 + 1) (h3 : date2num t3 = date2num t1 + 2) :
    polyfit1 [date2num t1, date2num t2, date2num t3] [1, 2, 3] =
      (1, 1 - date2num t1) := by
  rw [h2, h3]
  exact polyfit1_consecutive (date2num t1)

/-- Witness for C7 at three concrete consecutive midnights. -/
theorem c7_witness :
    date2num w7t2 = date2num w7t1 + 1 ∧ date2num w7t3 = date2num w7t1 + 2 ∧
      polyfit1 [date2num w7t1, date2num w7t2, date2num w7t3] [1, 2, 3] =
        (1, 1 - date2num w7t1) := by
  have e1 : date2num w7t1 = 0 := by
    norm_num [date2num, toOrdinal, epochOrdinal, daysBeforeYear,
      daysBeforeMonth, w7t1, daysInMonth]
  have e2 : date2num w7t2 = 1 := by
    norm_num [date2num, toOrdinal, epochOrdinal, daysBeforeYear,
      daysBeforeMonth, w7t2, daysInMonth]
  have e3 : date2num w7t3 = 2 := by
    norm_num [date2num, toOrdinal, epochOrdinal, daysBeforeYear,
      daysBeforeMonth, w7t3, daysInMonth]
  have h2 : date2num w7t2 = date2num w7t1 + 1 := by rw [e1, e2]; norm_num
  have h3 : date2num w7t3 = date2num w7t1 + 2 := by rw [e1, e3]; norm_num
  exact ⟨h2, h3, c7_even_spacing_unit_slope w7t1 w7t2 w7t3 h2 h3⟩

end PlotDeploys
